import Mathlib

/-!
Shallow embedding of the retry + chunking pipeline of `mistral.py`
(mistral-ocr-tool): `split_pdf`, `retry_on_error`, `get_combined_markdown`,
`convert_pdf_to_markdown`, `convert_image_to_markdown` and
`process_pdf_in_chunks`, together with theorems settling the spec claims.
-/

namespace MistralOcr

/-- Ceiling division on naturals: `math.ceil(a / b)` for nonnegative
integers, as computed in `split_pdf`. -/
def cdiv (a b : Nat) : Nat := (a + b - 1) / b

/-- The page-range splitting logic of `split_pdf` (src/mistral.py lines
290-323): given the page count of the document and the requested number of
chunks, return the list of page ranges `[start, end)` of the produced
chunks, in production order.  Mirrors
`pages_per_chunk = max(1, math.ceil(total_pages / num_chunks))`,
`actual_chunks = math.ceil(total_pages / pages_per_chunk)`, and
`start_page = i * pages_per_chunk`,
`end_page = min((i + 1) * pages_per_chunk, total_pages)` for
`i in range(actual_chunks)`. -/
def split_pdf (total_pages num_chunks : Nat) : List (Nat × Nat) :=
  let pages_per_chunk := max 1 (cdiv total_pages num_chunks)
  let actual_chunks := cdiv total_pages pages_per_chunk
  (List.range actual_chunks).map fun i =>
    (i * pages_per_chunk, min ((i + 1) * pages_per_chunk) total_pages)

theorem cdiv_ge (a b : Nat) (hb : 0 < b) : a ≤ cdiv a b * b := by
  have h1 : b * cdiv a b + (a + b - 1) % b = a + b - 1 := Nat.div_add_mod _ _
  have h2 : (a + b - 1) % b < b := Nat.mod_lt _ hb
  have hcomm : b * cdiv a b = cdiv a b * b := Nat.mul_comm _ _
  omega

theorem cdiv_lt (a b : Nat) (ha : 0 < a) : (cdiv a b - 1) * b < a := by
  have h1 : b * cdiv a b + (a + b - 1) % b = a + b - 1 := Nat.div_add_mod _ _
  have h3 : (cdiv a b - 1) * b = cdiv a b * b - b := Nat.sub_one_mul _ _
  have hcomm : b * cdiv a b = cdiv a b * b := Nat.mul_comm _ _
  omega

theorem cdiv_le_self (a b : Nat) (hb : 0 < b) : cdiv a b ≤ a := by
  have h : a + b - 1 ≤ b * a + (b - 1) := by
    have := Nat.le_mul_of_pos_left a hb
    omega
  exact (Nat.div_le_iff_le_mul_add_pred hb).2 h

theorem cdiv_pos {a b : Nat} (ha : 0 < a) (hb : 0 < b) : 0 < cdiv a b := by
  rcases Nat.eq_zero_or_pos (cdiv a b) with h | h
  · exfalso
    have h1 : b * cdiv a b + (a + b - 1) % b = a + b - 1 := Nat.div_add_mod _ _
    have h2 : (a + b - 1) % b < b := Nat.mod_lt _ hb
    rw [h, Nat.mul_zero] at h1
    omega
  · exact h

/-- Telescoping sum of the chunk sizes produced by the splitting loop. -/
theorem sum_chunk_sizes (p tp : Nat) :
    ∀ n, (((List.range n).map fun i => min ((i + 1) * p) tp - i * p).sum) = min (n * p) tp := by
  intro n
  induction n with
  | zero => simp
  | succ m ih =>
    rw [List.range_succ, List.map_append, List.sum_append, ih]
    simp only [List.map_cons, List.map_nil, List.sum_cons, List.sum_nil]
    have h1 : m * p ≤ (m + 1) * p := mul_le_mul_right' (Nat.le_succ m) p
    rcases Nat.le_total (m * p) tp with h | h
    · rw [Nat.min_eq_left h]
      rcases Nat.le_total ((m + 1) * p) tp with h2 | h2
      · rw [Nat.min_eq_left h2]
        omega
      · rw [Nat.min_eq_right h2]
        omega
    · have h2 : tp ≤ (m + 1) * p := le_trans h h1
      rw [Nat.min_eq_right h, Nat.min_eq_right h2]
      omega

theorem split_pdf_length (tp nc : Nat) :
    (split_pdf tp nc).length = cdiv tp (max 1 (cdiv tp nc)) := by
  simp [split_pdf]

/-- Claim C1: for every PDF with `total_pages ≥ 1` and every
`target_chunk_count ≥ 1`, `split_pdf` produces a nonempty sequence of chunks
whose sizes sum exactly to `total_pages`, in which no chunk is empty, whose
ranges are contiguous (each chunk starts where the previous one ends), the
first chunk starts at page 0 and the last chunk ends at `total_pages`; hence
the chunks are ascending, non-overlapping, and every page belongs to exactly
one chunk. -/
theorem C1_split_pdf_partitions (tp nc : Nat) (htp : 1 ≤ tp) (_hnc : 1 ≤ nc) :
    ((split_pdf tp nc).map fun c => c.2 - c.1).sum = tp ∧
    (∀ c ∈ split_pdf tp nc, c.1 < c.2) ∧
    List.Chain' (fun a b => a.2 = b.1) (split_pdf tp nc) ∧
    split_pdf tp nc ≠ [] ∧
    ((split_pdf tp nc).head?).map Prod.fst = some 0 ∧
    ((split_pdf tp nc).getLast?).map Prod.snd = some tp := by
  have hp1 : 1 ≤ max 1 (cdiv tp nc) := le_max_left _ _
  set p := max 1 (cdiv tp nc) with hp
  set ac := cdiv tp p with hac
  have hp0 : 0 < p := hp1
  have hle : tp ≤ ac * p := cdiv_ge tp p hp0
  have hlt : (ac - 1) * p < tp := cdiv_lt tp p htp
  have hac1 : 1 ≤ ac := cdiv_pos htp hp0
  have hsplit : split_pdf tp nc =
      (List.range ac).map fun i => (i * p, min ((i + 1) * p) tp) := rfl
  clear_value p ac
  refine ⟨?_, ?_, ?_, ?_, ?_, ?_⟩
  · rw [hsplit, List.map_map]
    have hs := sum_chunk_sizes p tp ac
    simpa [Function.comp, Nat.min_eq_right hle] using hs
  · intro c hc
    rw [hsplit] at hc
    obtain ⟨i, hi, rfl⟩ := List.mem_map.1 hc
    rw [List.mem_range] at hi
    have hsm : (i + 1) * p = i * p + p := Nat.succ_mul i p
    have hi2 : i * p ≤ (ac - 1) * p := mul_le_mul_right' (by omega) p
    simp only []
    have h1 : i * p < (i + 1) * p := by omega
    have h2 : i * p < tp := by omega
    exact lt_min h1 h2
  · rw [hsplit, List.chain'_map]
    obtain ⟨m, rfl⟩ : ∃ m, ac = m + 1 := ⟨ac - 1, by omega⟩
    refine (List.chain'_range_succ _ m).2 ?_
    intro i hi
    simp only []
    have hle2 : (i + 1) * p ≤ m * p := mul_le_mul_right' (by omega) p
    have hmp : m * p = (m + 1 - 1) * p := by simp
    rw [Nat.min_eq_left (by omega)]
  · rw [hsplit]
    intro hcon
    have hlen := congrArg List.length hcon
    simp at hlen
    omega
  · obtain ⟨m, rfl⟩ : ∃ m, ac = m + 1 := ⟨ac - 1, by omega⟩
    rw [hsplit, List.range_succ_eq_map]
    simp
  · obtain ⟨m, rfl⟩ : ∃ m, ac = m + 1 := ⟨ac - 1, by omega⟩
    rw [hsplit, List.range_succ, List.map_append]
    simp only [List.map_cons, List.map_nil]
    rw [List.getLast?_concat]
    simp [Nat.min_eq_right hle]

/-- Size of the last chunk in terms of `total_pages mod pages_per_chunk`. -/
theorem cdiv_last (tp p : Nat) (htp : 0 < tp) (hp : 0 < p) :
    tp - (cdiv tp p - 1) * p = if tp % p = 0 then p else tp % p := by
  have hqr : p * (tp / p) + tp % p = tp := Nat.div_add_mod tp p
  have hr : tp % p < p := Nat.mod_lt _ hp
  rcases Nat.eq_zero_or_pos (tp % p) with h0 | h0
  · rw [if_pos h0]
    have hq : cdiv tp p = tp / p := by
      unfold cdiv
      have h1 : tp + p - 1 = p * (tp / p) + (p - 1) := by omega
      have h2 : (p - 1) / p = 0 := Nat.div_eq_of_lt (by omega)
      rw [h1, Nat.mul_add_div hp, h2, Nat.add_zero]
    have hq1 : 0 < tp / p := by
      apply Nat.div_pos ?_ hp
      exact Nat.le_of_dvd htp (Nat.dvd_of_mod_eq_zero h0)
    have hple : p * 1 ≤ p * (tp / p) := Nat.mul_le_mul_left p hq1
    rw [hq, Nat.sub_one_mul, Nat.mul_comm (tp / p) p]
    omega
  · rw [if_neg (by omega)]
    have hq : cdiv tp p = tp / p + 1 := by
      unfold cdiv
      have h2 : p * (tp / p + 1) = p * (tp / p) + p := by ring
      have h1 : tp + p - 1 = p * (tp / p + 1) + (tp % p - 1) := by omega
      have h3 : (tp % p - 1) / p = 0 := Nat.div_eq_of_lt (by omega)
      rw [h1, Nat.mul_add_div hp, h3, Nat.add_zero]
    rw [hq, Nat.add_sub_cancel, Nat.mul_comm (tp / p) p]
    omega

/-- Claim C2: for every `total_pages ≥ 1` and `target_chunk_count ≥ 1`,
`split_pdf` uses `pages_per_chunk = max 1 (ceil (total_pages / target_chunk_count))`:
every chunk except possibly the last has exactly `pages_per_chunk` pages, the
last has `total_pages mod pages_per_chunk` pages (or a full chunk when evenly
divisible), and when `target_chunk_count > total_pages` the number of chunks
equals `total_pages`, one page per chunk. -/
theorem C2_split_pdf_chunk_sizes (tp nc : Nat) (htp : 1 ≤ tp) (hnc : 1 ≤ nc) :
    (∀ i, i + 1 < (split_pdf tp nc).length →
      ((split_pdf tp nc)[i]?).map (fun c => c.2 - c.1) = some (max 1 (cdiv tp nc))) ∧
    ((split_pdf tp nc).getLast?).map (fun c => c.2 - c.1) =
      some (if tp % (max 1 (cdiv tp nc)) = 0 then max 1 (cdiv tp nc)
            else tp % (max 1 (cdiv tp nc))) ∧
    (tp < nc →
      (split_pdf tp nc).length = tp ∧ ∀ c ∈ split_pdf tp nc, c.2 - c.1 = 1) := by
  have hp1 : 1 ≤ max 1 (cdiv tp nc) := le_max_left _ _
  set p := max 1 (cdiv tp nc) with hp
  set ac := cdiv tp p with hac
  have hp0 : 0 < p := hp1
  have hle : tp ≤ ac * p := cdiv_ge tp p hp0
  have hlt : (ac - 1) * p < tp := cdiv_lt tp p htp
  have hac1 : 1 ≤ ac := cdiv_pos htp hp0
  have hsplit : split_pdf tp nc =
      (List.range ac).map fun i => (i * p, min ((i + 1) * p) tp) := rfl
  have hlast : tp - (ac - 1) * p = if tp % p = 0 then p else tp % p := by
    rw [hac]
    exact cdiv_last tp p htp hp0
  clear_value p ac
  have hlen : (split_pdf tp nc).length = ac := by
    rw [hsplit]
    simp
  refine ⟨?_, ?_, ?_⟩
  · intro i hi
    rw [hlen] at hi
    rw [hsplit, List.getElem?_map, List.getElem?_range (by omega)]
    have hsm : (i + 1) * p = i * p + p := Nat.succ_mul i p
    have hle2 : (i + 1) * p ≤ (ac - 1) * p := mul_le_mul_right' (by omega) p
    simp only [Option.map_some']
    rw [Nat.min_eq_left (by omega)]
    simp only [Option.some.injEq]
    omega
  · obtain ⟨m, hm⟩ : ∃ m, ac = m + 1 := ⟨ac - 1, by omega⟩
    rw [hm] at hle
    rw [hsplit, hm, List.range_succ, List.map_append]
    simp only [List.map_cons, List.map_nil]
    rw [List.getLast?_concat]
    simp only [Option.map_some']
    rw [Nat.min_eq_right (by omega)]
    simp only [Option.some.injEq]
    rw [← hlast, hm, Nat.add_sub_cancel]
  · intro htpnc
    have hcd : cdiv tp nc = 1 := by
      unfold cdiv
      exact Nat.div_eq_of_lt_le (by omega) (by omega)
    have hpone : p = 1 := by
      rw [hp, hcd]
      simp
    have hactp : ac = tp := by
      rw [hac, hpone]
      unfold cdiv
      simp
    constructor
    · rw [hlen, hactp]
    · intro c hc
      rw [hsplit] at hc
      obtain ⟨i, hi, rfl⟩ := List.mem_map.1 hc
      rw [List.mem_range, hactp] at hi
      simp only [hpone, Nat.mul_one]
      rw [Nat.min_eq_left (by omega)]
      omega

/-- Witness for C2 at `total_pages = 3`, `target_chunk_count = 5`
(the chunk-count-exceeds-page-count branch is non-vacuous there). -/
theorem C2_split_pdf_chunk_sizes_witness :
    (∀ i, i + 1 < (split_pdf 3 5).length →
      ((split_pdf 3 5)[i]?).map (fun c => c.2 - c.1) = some (max 1 (cdiv 3 5))) ∧
    ((split_pdf 3 5).getLast?).map (fun c => c.2 - c.1) =
      some (if 3 % (max 1 (cdiv 3 5)) = 0 then max 1 (cdiv 3 5)
            else 3 % (max 1 (cdiv 3 5))) ∧
    (3 < 5 → (split_pdf 3 5).length = 3 ∧ ∀ c ∈ split_pdf 3 5, c.2 - c.1 = 1) :=
  C2_split_pdf_chunk_sizes 3 5 (by decide) (by decide)

/-- Counterexample for claim C3: the claim says `split_pdf` fails with an
`InvalidDocumentError` when the document has zero pages, but the source
defines no such error and the splitting loop simply runs zero times:
`split_pdf` returns a normal, empty chunk sequence for a zero-page document
(`num_chunks = 100`, the CLI default, shown here). -/
theorem C3_split_pdf_zero_pages_counterexample : split_pdf 0 100 = [] := rfl

/-- Claim C3 as amended: for a document with `total_pages = 0`, `split_pdf`
does not fail; for every requested chunk count it returns the empty chunk
sequence. -/
theorem C3_split_pdf_zero_pages_amended (nc : Nat) : split_pdf 0 nc = [] := by
  have h : (nc - 1) / nc = 0 := by
    rcases Nat.eq_zero_or_pos nc with h | h
    · simp [h]
    · exact Nat.div_eq_of_lt (by omega)
  simp [split_pdf, cdiv, h]

/-- Witness for C1 at `total_pages = 5`, `target_chunk_count = 2`. -/
theorem C1_split_pdf_partitions_witness :
    ((split_pdf 5 2).map fun c => c.2 - c.1).sum = 5 ∧
    (∀ c ∈ split_pdf 5 2, c.1 < c.2) ∧
    List.Chain' (fun a b => a.2 = b.1) (split_pdf 5 2) ∧
    split_pdf 5 2 ≠ [] ∧
    ((split_pdf 5 2).head?).map Prod.fst = some 0 ∧
    ((split_pdf 5 2).getLast?).map Prod.snd = some 5 :=
  C1_split_pdf_partitions 5 2 (by decide) (by decide)

/-- A Python exception value as seen by the retry wrapper: an identity for
the exception object (object identity is modelled by equality of the value)
and a flag telling whether the value is an instance of one of the
`retry_on_exceptions` types (`MistralAPIException`, `ConnectionError`). -/
structure PyErr where
  id : Nat
  retryable : Bool
deriving DecidableEq, Repr

/-- The loop of the `wrapper` closure built by `retry_on_error`
(src/mistral.py lines 40-66), embedded with explicit state.  `op k` is the
outcome of the `k`-th invocation (0-based) of the wrapped function;
`remaining` is `max_retries - retry`; `delay` is the current backoff delay
(an exact rational standing for the Python float).  The result records the
wrapper's outcome (returned value or raised exception), the total number of
invocations of the wrapped function, and the durations passed to
`time.sleep`, in order.  When `remaining = 0` a retryable error is re-raised
as `last_exception` and a non-retryable error propagates from the `try`;
both leave the loop with the same error value. -/
def retryGo (op : Nat → Except PyErr α) (f : ℚ) :
    Nat → Nat → ℚ → Except PyErr α × Nat × List ℚ
  | attempt, 0, _delay =>
    match op attempt with
    | .ok a => (.ok a, attempt + 1, [])
    | .error e => (.error e, attempt + 1, [])
  | attempt, r + 1, delay =>
    match op attempt with
    | .ok a => (.ok a, attempt + 1, [])
    | .error e =>
      if e.retryable then
        ((retryGo op f (attempt + 1) r (delay * f)).1,
         (retryGo op f (attempt + 1) r (delay * f)).2.1,
         delay :: (retryGo op f (attempt + 1) r (delay * f)).2.2)
      else (.error e, attempt + 1, [])

/-- The retry wrapper `retry_on_error` (src/mistral.py lines 25-69): given
the per-invocation outcomes `op` of the wrapped function and the decorator
parameters, return the wrapper's final outcome, the number of invocations of
the wrapped function, and the performed sleep durations in order. -/
def retry_on_error (op : Nat → Except PyErr α) (max_retries : Nat)
    (initial_delay backoff_factor : ℚ) : Except PyErr α × Nat × List ℚ :=
  retryGo op backoff_factor 0 max_retries initial_delay

theorem retryGo_all_fail (op : Nat → Except PyErr α) (e : Nat → PyErr) (f : ℚ) :
    ∀ r a d, (∀ k, a ≤ k → k ≤ a + r → op k = .error (e k) ∧ (e k).retryable = true) →
      (retryGo op f a r d).1 = .error (e (a + r)) ∧
      (retryGo op f a r d).2.1 = a + r + 1 := by
  intro r
  induction r with
  | zero =>
    intro a d h
    obtain ⟨he, _⟩ := h a le_rfl (by omega)
    simp [retryGo, he]
  | succ r ih =>
    intro a d h
    obtain ⟨he, hr⟩ := h a le_rfl (by omega)
    have hrec := ih (a + 1) (d * f) (fun k hk1 hk2 => h k (by omega) (by omega))
    have harith : a + 1 + r = a + (r + 1) := by omega
    rw [harith] at hrec
    simp [retryGo, he, hr, hrec.1, hrec.2]

theorem retryGo_count_gt (op : Nat → Except PyErr α) (f : ℚ) :
    ∀ r a d, a < (retryGo op f a r d).2.1 := by
  intro r
  induction r with
  | zero =>
    intro a d
    match h : op a with
    | .ok v => simp [retryGo, h]
    | .error e => simp [retryGo, h]
  | succ r ih =>
    intro a d
    match h : op a with
    | .ok v => simp [retryGo, h]
    | .error e =>
      by_cases hr : e.retryable
      · have := ih (a + 1) (d * f)
        simp [retryGo, h, hr]
        omega
      · simp [retryGo, h, hr]

theorem retryGo_sleeps (op : Nat → Except PyErr α) (f : ℚ) :
    ∀ r a d, (retryGo op f a r d).2.2 =
      (List.range ((retryGo op f a r d).2.1 - a - 1)).map (fun i => d * f ^ i) := by
  intro r
  induction r with
  | zero =>
    intro a d
    match h : op a with
    | .ok v => simp [retryGo, h]
    | .error e => simp [retryGo, h]
  | succ r ih =>
    intro a d
    match h : op a with
    | .ok v => simp [retryGo, h]
    | .error e =>
      by_cases hr : e.retryable
      · have hgt := retryGo_count_gt op f r (a + 1) (d * f)
        have hih := ih (a + 1) (d * f)
        simp only [retryGo, h, hr, if_true]
        obtain ⟨m, hm⟩ : ∃ m, (retryGo op f (a + 1) r (d * f)).2.1 - a - 2 + 1 =
            (retryGo op f (a + 1) r (d * f)).2.1 - a - 1 :=
          ⟨0, by omega⟩
        rw [hih]
        have hc : (retryGo op f (a + 1) r (d * f)).2.1 - (a + 1) - 1 =
            (retryGo op f (a + 1) r (d * f)).2.1 - a - 2 := by omega
        rw [hc, ← hm, List.range_succ_eq_map, List.map_cons, List.map_map]
        have h0 : d * f ^ 0 = d := by ring
        have hcong : ∀ i, ((fun i => d * f ^ i) ∘ Nat.succ) i = (fun i => d * f * f ^ i) i := by
          intro i
          simp only [Function.comp, pow_succ]
          ring
        rw [h0, List.map_congr_left (fun i _ => hcong i)]
      · simp [retryGo, h, hr]

/-- Claim C4: a `retry_on_error`-wrapped operation with `max_retries = N`
that fails on every call with a retryable error is invoked exactly `N + 1`
times and the wrapper re-raises the last encountered error unchanged; an
operation that raises a non-retryable error on its first call is invoked
exactly once and that error propagates immediately, with no sleep. -/
theorem C4_retry_on_error_attempts {α : Type} (op : Nat → Except PyErr α)
    (N : Nat) (d f : ℚ) (e : Nat → PyErr) :
    ((∀ k, k ≤ N → op k = .error (e k) ∧ (e k).retryable = true) →
      (retry_on_error op N d f).1 = .error (e N) ∧
      (retry_on_error op N d f).2.1 = N + 1) ∧
    (∀ err : PyErr, op 0 = .error err → err.retryable = false →
      retry_on_error op N d f = (.error err, 1, [])) := by
  constructor
  · intro h
    have := retryGo_all_fail op e f N 0 d (fun k hk1 hk2 => h k (by omega))
    simpa [retry_on_error] using this
  · intro err herr hret
    cases N with
    | zero => simp [retry_on_error, retryGo, herr]
    | succ n => simp [retry_on_error, retryGo, herr, hret]

/-- Witness for C4: a permanently failing retryable error with
`max_retries = 2` gives three invocations and the last error; a
non-retryable error gives one invocation, no sleeps, and the same error. -/
theorem C4_retry_on_error_attempts_witness :
    ((retry_on_error (fun _ => (Except.error ⟨7, true⟩ : Except PyErr Nat)) 2 1 2).1 =
        Except.error ⟨7, true⟩ ∧
      (retry_on_error (fun _ => (Except.error ⟨7, true⟩ : Except PyErr Nat)) 2 1 2).2.1 = 3) ∧
    retry_on_error (fun _ => (Except.error ⟨9, false⟩ : Except PyErr Nat)) 2 1 2 =
      (Except.error ⟨9, false⟩, 1, []) :=
  ⟨(C4_retry_on_error_attempts (fun _ => Except.error ⟨7, true⟩) 2 1 2
      (fun _ => ⟨7, true⟩)).1 (fun _ _ => ⟨rfl, rfl⟩),
   (C4_retry_on_error_attempts (fun _ => Except.error ⟨9, false⟩) 2 1 2
      (fun _ => ⟨9, false⟩)).2 ⟨9, false⟩ rfl rfl⟩

/-- Claim C5: the sleep durations performed by `retry_on_error` with
`initial_delay = d` and `backoff_factor = f` are exactly
`d, d*f, d*f^2, ...`, one before each retry and none before the first
attempt (so `count - 1` sleeps for `count` invocations); with
`max_retries = 0` exactly one attempt is made and no sleep occurs. -/
theorem C5_retry_on_error_backoff {α : Type} (op : Nat → Except PyErr α)
    (N : Nat) (d f : ℚ) :
    (retry_on_error op N d f).2.2 =
      (List.range ((retry_on_error op N d f).2.1 - 1)).map (fun i => d * f ^ i) ∧
    (N = 0 → (retry_on_error op N d f).2.1 = 1 ∧ (retry_on_error op N d f).2.2 = []) := by
  constructor
  · have := retryGo_sleeps op f N 0 d
    simpa [retry_on_error] using this
  · intro hN
    subst hN
    match h : op 0 with
    | .ok v => simp [retry_on_error, retryGo, h]
    | .error e => simp [retry_on_error, retryGo, h]

/-- Witness for C5: an operation failing retryably on attempts 0 and 1 and
succeeding on attempt 2, with `d = 1, f = 2`; and the `max_retries = 0`
edge case. -/
theorem C5_retry_on_error_backoff_witness :
    (retry_on_error (fun k => if k < 2 then (Except.error ⟨1, true⟩ : Except PyErr Nat)
        else Except.ok 42) 3 1 2).2.2 =
      (List.range ((retry_on_error (fun k => if k < 2 then (Except.error ⟨1, true⟩ : Except PyErr Nat)
        else Except.ok 42) 3 1 2).2.1 - 1)).map (fun i => (1 : ℚ) * 2 ^ i) ∧
    ((retry_on_error (fun _ => (Except.ok 0 : Except PyErr Nat)) 0 1 2).2.1 = 1 ∧
      (retry_on_error (fun _ => (Except.ok 0 : Except PyErr Nat)) 0 1 2).2.2 = []) :=
  ⟨(C5_retry_on_error_backoff (fun k => if k < 2 then Except.error ⟨1, true⟩
      else Except.ok 42) 3 1 2).1,
   (C5_retry_on_error_backoff (fun _ => Except.ok 0) 0 1 2).2 rfl⟩

/-- `"\n\n".join(...)` over the page markdowns, as in
`get_combined_markdown` (src/mistral.py lines 76-92). -/
def get_combined_markdown (pages : List String) : String :=
  String.intercalate "\n\n" pages

/-- The per-chunk outer retry loop of `process_pdf_in_chunks`
(src/mistral.py lines 494-516): `res k` is the outcome of the `k`-th
attempt at the chunk (`some content` when `convert_pdf_to_markdown`
produced an output; `none` when it returned `None` or raised — the code
treats both the same way: retry, and on exhaustion record the chunk as
failed).  Returns the chunk result, the number of attempts made, and the
sleep durations `2 * (retry + 1)` performed between attempts, in order. -/
def chunkAttempts (res : Nat → Option String) :
    Nat → Nat → Option String × Nat × List Nat
  | attempt, 0 =>
    match res attempt with
    | some s => (some s, attempt + 1, [])
    | none => (none, attempt + 1, [])
  | attempt, r + 1 =>
    match res attempt with
    | some s => (some s, attempt + 1, [])
    | none =>
      ((chunkAttempts res (attempt + 1) r).1,
       (chunkAttempts res (attempt + 1) r).2.1,
       2 * (attempt + 1) :: (chunkAttempts res (attempt + 1) r).2.2)

/-- The chunk loop of `process_pdf_in_chunks` (src/mistral.py lines
479-516), with the hardcoded outer budget `max_chunk_retries = 2`:
`convert i k` is the outcome of the `k`-th attempt at chunk index `i`
(0-based).  Returns the successful chunk outputs in encounter order and
the recorded failed chunk ordinals (1-based), as accumulated by the
loop. -/
def processChunks (convert : Nat → Nat → Option String) (n : Nat) :
    List String × List Nat :=
  (List.range n).foldl
    (fun acc i =>
      match (chunkAttempts (convert i) 0 2).1 with
      | some s => (acc.1 ++ [s], acc.2)
      | none => (acc.1, acc.2 ++ [i + 1]))
    ([], [])

/-- The combine step of `process_pdf_in_chunks` (src/mistral.py lines
519-525): for each successful chunk output in order, the combined file
receives the chunk's content followed by the separator `"\n\n"`. -/
def mergeChunks : List String → String
  | [] => ""
  | s :: rest => s ++ "\n\n" ++ mergeChunks rest

/-- Final result of `process_pdf_in_chunks`: the merged output file (with
its content), the list of per-chunk outputs when no combined output path
was given, or no output at all (`None`). -/
inductive PipelineResult
  | mergedFile (content : String)
  | chunkFiles (outs : List String)
  | noOutput
deriving DecidableEq, Repr

/-- Outcome derivation of `process_pdf_in_chunks` (src/mistral.py lines
469-546): run the chunk loop, then, when an output path was provided and at
least one chunk succeeded, write the combined file; with no successful
chunk return `None`; otherwise return the per-chunk outputs.  The second
component is the warning surfaced for failed chunks (`some` failed ordinals
exactly when an output is returned and some chunk failed). -/
def process_pdf_in_chunks (convert : Nat → Nat → Option String) (n : Nat)
    (hasOutputPath : Bool) : PipelineResult × Option (List Nat) :=
  let outs := (processChunks convert n).1
  let failed := (processChunks convert n).2
  if hasOutputPath && !outs.isEmpty then
    (PipelineResult.mergedFile (mergeChunks outs),
     if failed.isEmpty then none else some failed)
  else if outs.isEmpty then
    (PipelineResult.noOutput, none)
  else
    (PipelineResult.chunkFiles outs, if failed.isEmpty then none else some failed)

theorem chunkAttempts_count (res : Nat → Option String) :
    ∀ r a, a < (chunkAttempts res a r).2.1 ∧ (chunkAttempts res a r).2.1 ≤ a + r + 1 := by
  intro r
  induction r with
  | zero =>
    intro a
    match h : res a with
    | some s => simp [chunkAttempts, h]
    | none => simp [chunkAttempts, h]
  | succ r ih =>
    intro a
    match h : res a with
    | some s => simp [chunkAttempts, h]
    | none =>
      have := ih (a + 1)
      simp [chunkAttempts, h]
      omega

theorem chunkAttempts_exhaust (res : Nat → Option String) :
    ∀ r a, (chunkAttempts res a r).1 = none → (chunkAttempts res a r).2.1 = a + r + 1 := by
  intro r
  induction r with
  | zero =>
    intro a h
    match hr : res a with
    | some s => simp [chunkAttempts, hr] at h
    | none => simp [chunkAttempts, hr]
  | succ r ih =>
    intro a h
    match hr : res a with
    | some s => simp [chunkAttempts, hr] at h
    | none =>
      simp only [chunkAttempts, hr] at h ⊢
      have := ih (a + 1) h
      omega

theorem chunkAttempts_sleeps (res : Nat → Option String) :
    ∀ r a, (chunkAttempts res a r).2.2 =
      (List.range ((chunkAttempts res a r).2.1 - a - 1)).map (fun k => 2 * (a + k + 1)) := by
  intro r
  induction r with
  | zero =>
    intro a
    match h : res a with
    | some s => simp [chunkAttempts, h]
    | none => simp [chunkAttempts, h]
  | succ r ih =>
    intro a
    match h : res a with
    | some s => simp [chunkAttempts, h]
    | none =>
      have hgt := (chunkAttempts_count res r (a + 1)).1
      have hih := ih (a + 1)
      simp only [chunkAttempts, h]
      rw [hih]
      have hc : (chunkAttempts res (a + 1) r).2.1 - (a + 1) - 1 =
          (chunkAttempts res (a + 1) r).2.1 - a - 2 := by omega
      have hm : (chunkAttempts res (a + 1) r).2.1 - a - 2 + 1 =
          (chunkAttempts res (a + 1) r).2.1 - a - 1 := by omega
      rw [hc, ← hm, List.range_succ_eq_map, List.map_cons, List.map_map]
      have hcong : ∀ i, ((fun k => 2 * (a + k + 1)) ∘ Nat.succ) i =
          (fun k => 2 * (a + 1 + k + 1)) i := by
        intro i
        simp only [Function.comp]
        omega
      rw [List.map_congr_left (fun i _ => hcong i)]

theorem foldl_chunks_spec (convert : Nat → Nat → Option String) :
    ∀ (l : List Nat) (acc : List String × List Nat),
      l.foldl (fun acc i =>
        match (chunkAttempts (convert i) 0 2).1 with
        | some s => (acc.1 ++ [s], acc.2)
        | none => (acc.1, acc.2 ++ [i + 1])) acc =
      (acc.1 ++ l.filterMap (fun i => (chunkAttempts (convert i) 0 2).1),
       acc.2 ++ (l.filter (fun i => ((chunkAttempts (convert i) 0 2).1).isNone)).map
          (fun i => i + 1)) := by
  intro l
  induction l with
  | nil =>
    intro acc
    simp
  | cons x xs ih =>
    intro acc
    rw [List.foldl_cons, ih]
    match h : (chunkAttempts (convert x) 0 2).1 with
    | some s => simp [List.filterMap_cons, List.filter_cons, h]
    | none => simp [List.filterMap_cons, List.filter_cons, h]

theorem processChunks_eq (convert : Nat → Nat → Option String) (n : Nat) :
    processChunks convert n =
      ((List.range n).filterMap (fun i => (chunkAttempts (convert i) 0 2).1),
       ((List.range n).filter (fun i => ((chunkAttempts (convert i) 0 2).1).isNone)).map
          (fun i => i + 1)) := by
  unfold processChunks
  rw [foldl_chunks_spec]
  simp

theorem filterMap_filter_length {α β : Type} (g : α → Option β) :
    ∀ l : List α, (l.filterMap g).length + (l.filter fun i => (g i).isNone).length = l.length := by
  intro l
  induction l with
  | nil => simp
  | cons x xs ih =>
    match h : g x with
    | some b =>
      simp [List.filterMap_cons, List.filter_cons, h]
      omega
    | none =>
      simp [List.filterMap_cons, List.filter_cons, h]
      omega

theorem processChunks_length (convert : Nat → Nat → Option String) (n : Nat) :
    (processChunks convert n).1.length + (processChunks convert n).2.length = n := by
  rw [processChunks_eq]
  simp only []
  rw [List.length_map]
  have := filterMap_filter_length (fun i => (chunkAttempts (convert i) 0 2).1) (List.range n)
  simpa using this

/-- Claim C6: in `process_pdf_in_chunks` each chunk is attempted at most
`budget + 1` times, a chunk is recorded as failed only after exactly
`budget + 1` attempts, the sleeps between outer attempts are
`2 * attemptNumber` seconds; chunks are processed sequentially in ascending
ordinal order (the successes and the failed ordinals are the in-order
filters of the chunk index range, with the pipeline's hardcoded outer
budget 2), and no chunk failure aborts the pipeline: every one of the `n`
chunks ends up recorded either as a success or as a failed ordinal. -/
theorem C6_pipeline_chunk_loop (convert : Nat → Nat → Option String)
    (n : Nat) (res : Nat → Option String) (budget : Nat) :
    ((chunkAttempts res 0 budget).2.1 ≤ budget + 1) ∧
    ((chunkAttempts res 0 budget).1 = none →
      (chunkAttempts res 0 budget).2.1 = budget + 1) ∧
    ((chunkAttempts res 0 budget).2.2 =
      (List.range ((chunkAttempts res 0 budget).2.1 - 1)).map (fun k => 2 * (k + 1))) ∧
    ((processChunks convert n).1 =
      (List.range n).filterMap (fun i => (chunkAttempts (convert i) 0 2).1)) ∧
    ((processChunks convert n).2 =
      ((List.range n).filter (fun i => ((chunkAttempts (convert i) 0 2).1).isNone)).map
        (fun i => i + 1)) ∧
    ((processChunks convert n).1.length + (processChunks convert n).2.length = n) := by
  refine ⟨?_, ?_, ?_, ?_, ?_, ?_⟩
  · simpa using (chunkAttempts_count res budget 0).2
  · intro h
    simpa using chunkAttempts_exhaust res budget 0 h
  · have := chunkAttempts_sleeps res budget 0
    simpa using this
  · rw [processChunks_eq]
  · rw [processChunks_eq]
  · exact processChunks_length convert n

/-- Witness for C6: two chunks, the first succeeding at once and the second
always failing, with the pipeline's outer budget 2: the failing chunk makes
3 attempts sleeping 2 then 4 seconds, and the loop records one success and
the failed ordinal 2. -/
theorem C6_pipeline_chunk_loop_witness :
    ((chunkAttempts (fun _ => none) 0 2).2.1 ≤ 3) ∧
    ((chunkAttempts (fun _ => none) 0 2).2.1 = 3) ∧
    ((chunkAttempts (fun _ => none) 0 2).2.2 =
      (List.range ((chunkAttempts (fun _ => none) 0 2).2.1 - 1)).map (fun k => 2 * (k + 1))) ∧
    ((processChunks (fun i _ => if i = 0 then some "a" else none) 2).1 =
      (List.range 2).filterMap
        (fun i => (chunkAttempts ((fun i _ => if i = 0 then some "a" else none) i) 0 2).1)) ∧
    ((processChunks (fun i _ => if i = 0 then some "a" else none) 2).2 =
      ((List.range 2).filter
        (fun i => ((chunkAttempts ((fun i _ => if i = 0 then some "a" else none) i) 0 2).1).isNone)).map
        (fun i => i + 1)) ∧
    ((processChunks (fun i _ => if i = 0 then some "a" else none) 2).1.length +
      (processChunks (fun i _ => if i = 0 then some "a" else none) 2).2.length = 2) := by
  have h := C6_pipeline_chunk_loop (fun i _ => if i = 0 then some "a" else none) 2
    (fun _ => none) 2
  exact ⟨h.1, h.2.1 rfl, h.2.2.1, h.2.2.2.1, h.2.2.2.2.1, h.2.2.2.2.2⟩

/-- Claim C8: outcome derivation of `process_pdf_in_chunks` (with an output
path provided, as the CLI always does): zero successful chunks give no
output and no merged file; at least one success together with at least one
failure still gives the merged output of the successful chunks with the
failed ordinals surfaced as a warning; no failures (with at least one
chunk) give the full merged output and no warning. -/
theorem C8_pipeline_outcome (convert : Nat → Nat → Option String) (n : Nat) :
    ((processChunks convert n).1 = [] →
      process_pdf_in_chunks convert n true = (PipelineResult.noOutput, none)) ∧
    ((processChunks convert n).1 ≠ [] → (processChunks convert n).2 ≠ [] →
      process_pdf_in_chunks convert n true =
        (PipelineResult.mergedFile (mergeChunks (processChunks convert n).1),
         some (processChunks convert n).2)) ∧
    (0 < n → (processChunks convert n).2 = [] →
      process_pdf_in_chunks convert n true =
        (PipelineResult.mergedFile (mergeChunks (processChunks convert n).1), none)) := by
  refine ⟨?_, ?_, ?_⟩
  · intro h
    simp [process_pdf_in_chunks, h]
  · intro h1 h2
    simp [process_pdf_in_chunks, List.isEmpty_iff, h1, h2]
  · intro hn h2
    have hlen := processChunks_length convert n
    have h1 : (processChunks convert n).1 ≠ [] := by
      intro hnil
      rw [hnil, h2] at hlen
      simp at hlen
      omega
    simp [process_pdf_in_chunks, List.isEmpty_iff, h1, h2]

/-- Witness for C8: three concrete two-chunk pipelines, one with every
chunk failing, one with exactly one failing chunk, one with none. -/
theorem C8_pipeline_outcome_witness :
    process_pdf_in_chunks (fun _ _ => none) 2 true = (PipelineResult.noOutput, none) ∧
    process_pdf_in_chunks (fun i _ => if i = 0 then some "a" else none) 2 true =
      (PipelineResult.mergedFile
        (mergeChunks (processChunks (fun i _ => if i = 0 then some "a" else none) 2).1),
       some (processChunks (fun i _ => if i = 0 then some "a" else none) 2).2) ∧
    process_pdf_in_chunks (fun _ _ => some "b") 2 true =
      (PipelineResult.mergedFile (mergeChunks (processChunks (fun _ _ => some "b") 2).1),
       none) :=
  ⟨(C8_pipeline_outcome (fun _ _ => none) 2).1 rfl,
   (C8_pipeline_outcome (fun i _ => if i = 0 then some "a" else none) 2).2.1
     (by decide) (by decide),
   (C8_pipeline_outcome (fun _ _ => some "b") 2).2.2 (by decide) (by decide)⟩

theorem mergeChunks_append (xs ys : List String) :
    mergeChunks (xs ++ ys) = mergeChunks xs ++ mergeChunks ys := by
  induction xs with
  | nil => simp [mergeChunks, String.empty_append]
  | cons x xs ih =>
    simp only [List.cons_append, mergeChunks, String.append_assoc]
    exact congrArg (fun t => x ++ ("\n\n" ++ t)) ih

/-- Claim C7: the merge step of `process_pdf_in_chunks` is order-preserving
and lossless: merging is a monoid homomorphism from the list of successful
chunk outputs (kept in ascending ordinal order) to the combined text, a
single output contributes its content verbatim followed by a blank line,
and each successful output appears verbatim and contiguous in the merged
text — preceded by exactly the merge of the earlier outputs and followed by
the blank-line separator and the merge of the later outputs. -/
theorem C7_merge_order_preserving_lossless :
    (∀ xs ys : List String, mergeChunks (xs ++ ys) = mergeChunks xs ++ mergeChunks ys) ∧
    (∀ s : String, mergeChunks [s] = s ++ "\n\n") ∧
    (∀ (l : List String) (i : Nat) (h : i < l.length),
      mergeChunks l =
        mergeChunks (l.take i) ++
          (l.get ⟨i, h⟩ ++ ("\n\n" ++ mergeChunks (l.drop (i + 1))))) := by
  refine ⟨mergeChunks_append, ?_, ?_⟩
  · intro s
    simp only [mergeChunks, String.append_empty]
  · intro l i h
    conv_lhs => rw [← List.take_append_drop i l]
    rw [mergeChunks_append, List.drop_eq_getElem_cons h]
    simp only [mergeChunks, List.get_eq_getElem, String.append_assoc]

/-- Witness for C7 on the concrete outputs `["a", "b", "c"]`. -/
theorem C7_merge_order_preserving_lossless_witness :
    mergeChunks (["a"] ++ ["b", "c"]) = mergeChunks ["a"] ++ mergeChunks ["b", "c"] ∧
    mergeChunks ["x"] = "x" ++ "\n\n" ∧
    mergeChunks ["a", "b", "c"] =
      mergeChunks (["a", "b", "c"].take 1) ++
        (["a", "b", "c"].get ⟨1, by decide⟩ ++
          ("\n\n" ++ mergeChunks (["a", "b", "c"].drop 2))) :=
  ⟨C7_merge_order_preserving_lossless.1 ["a"] ["b", "c"],
   C7_merge_order_preserving_lossless.2.1 "x",
   C7_merge_order_preserving_lossless.2.2 ["a", "b", "c"] 1 (by decide)⟩

/-- Environment of one `convert_pdf_to_markdown` call (src/mistral.py lines
148-204): whether the input file exists, the per-attempt outcomes of the
retried upload step (`upload_file_to_ocr_service`, returning a signed URL)
and of the retried OCR step (`process_with_ocr`, returning the per-page
markdown), and whether writing the output file succeeds. -/
structure PdfConvertEnv where
  fileExists : Bool
  uploadOp : Nat → Except PyErr String
  ocrOp : Nat → Except PyErr (List String)
  writeOk : Bool

/-- `convert_pdf_to_markdown` (src/mistral.py lines 148-204).  Both remote
steps are wrapped by `retry_on_error(max_retries=3, initial_delay=2.0)`
(backoff factor 2.0, the decorator default); every exception raised inside
is caught (the two inner `try` blocks and the enclosing
`except Exception`), so the function always returns instead of raising.
Result: the returned value (`some output_path`, or `none` on failure) and
the content written to the output file (`none` when no file was
written). -/
def convert_pdf_to_markdown (env : PdfConvertEnv) (output_path : String) :
    Option String × Option String :=
  if !env.fileExists then (none, none)
  else
    match (retry_on_error env.uploadOp 3 2 2).1 with
    | .error _ => (none, none)
    | .ok _ =>
      match (retry_on_error env.ocrOp 3 2 2).1 with
      | .error _ => (none, none)
      | .ok pages =>
        if env.writeOk then (some output_path, some (get_combined_markdown pages))
        else (none, none)

/-- Environment of one `convert_image_to_markdown` call (src/mistral.py
lines 224-275): whether the input file exists, the per-attempt outcomes of
the retried OCR step (`process_image_with_ocr`), and whether writing the
output file succeeds. -/
structure ImageConvertEnv where
  fileExists : Bool
  ocrOp : Nat → Except PyErr (List String)
  writeOk : Bool

/-- `convert_image_to_markdown` (src/mistral.py lines 224-275), embedded
like `convert_pdf_to_markdown`: the OCR step is retried, every exception is
caught, failure paths return `None` with nothing written. -/
def convert_image_to_markdown (env : ImageConvertEnv) (output_path : String) :
    Option String × Option String :=
  if !env.fileExists then (none, none)
  else
    match (retry_on_error env.ocrOp 3 2 2).1 with
    | .error _ => (none, none)
    | .ok pages =>
      if env.writeOk then (some output_path, some (get_combined_markdown pages))
      else (none, none)

/-- Counterexample for claim C9: the claim says `convert_pdf_to_markdown`
fails with a `ConversionError` wrapping the cause when the upload step
exhausts its retries, but the source defines no `ConversionError` and wraps
every failure in `try/except`: with an upload step that fails on every
attempt with a retryable error, the call returns the normal value `None`
(and writes nothing) instead of raising anything. -/
theorem C9_conversion_error_counterexample :
    convert_pdf_to_markdown
      ⟨true, fun _ => Except.error ⟨3, true⟩, fun _ => Except.ok ["page"], true⟩
      "out.md" = (none, none) := rfl

/-- Claim C9 as amended: whenever the upload step or the extract step of
`convert_pdf_to_markdown` ends in an error (after its retries), the
function signals failure by returning `None` — with no output file written
and no exception raised — rather than by raising a `ConversionError`. -/
theorem C9_convert_pdf_failure_paths (env : PdfConvertEnv) (path : String)
    (hf : env.fileExists = true) :
    ((∃ e, (retry_on_error env.uploadOp 3 2 2).1 = .error e) →
      convert_pdf_to_markdown env path = (none, none)) ∧
    (∀ u, (retry_on_error env.uploadOp 3 2 2).1 = .ok u →
      (∃ e, (retry_on_error env.ocrOp 3 2 2).1 = .error e) →
      convert_pdf_to_markdown env path = (none, none)) := by
  constructor
  · rintro ⟨e, he⟩
    simp [convert_pdf_to_markdown, hf, he]
  · rintro u hu ⟨e, he⟩
    simp [convert_pdf_to_markdown, hf, hu, he]

/-- Witness for the amended C9: an always-failing upload step, and an
upload step that succeeds followed by an always-failing OCR step. -/
theorem C9_convert_pdf_failure_paths_witness :
    convert_pdf_to_markdown
      ⟨true, fun _ => Except.error ⟨3, true⟩, fun _ => Except.ok ["page"], true⟩
      "a.md" = (none, none) ∧
    convert_pdf_to_markdown
      ⟨true, fun _ => Except.ok "url", fun _ => Except.error ⟨5, false⟩, true⟩
      "a.md" = (none, none) :=
  ⟨(C9_convert_pdf_failure_paths
      ⟨true, fun _ => Except.error ⟨3, true⟩, fun _ => Except.ok ["page"], true⟩
      "a.md" rfl).1 ⟨⟨3, true⟩, rfl⟩,
   (C9_convert_pdf_failure_paths
      ⟨true, fun _ => Except.ok "url", fun _ => Except.error ⟨5, false⟩, true⟩
      "a.md" rfl).2 "url" rfl ⟨⟨5, false⟩, rfl⟩⟩

/-- Every run of `convert_pdf_to_markdown` either fails returning `None`
with nothing written, or returns the output path with the combined markdown
of some OCR pages written to it. -/
theorem convert_pdf_cases (env : PdfConvertEnv) (path : String) :
    convert_pdf_to_markdown env path = (none, none) ∨
    ∃ pages, convert_pdf_to_markdown env path =
      (some path, some (get_combined_markdown pages)) := by
  unfold convert_pdf_to_markdown
  cases hf : env.fileExists
  · exact Or.inl (by simp)
  · rcases hu : (retry_on_error env.uploadOp 3 2 2).1 with e | u
    · exact Or.inl (by simp [hu])
    · rcases ho : (retry_on_error env.ocrOp 3 2 2).1 with e | pages
      · exact Or.inl (by simp [hu, ho])
      · cases hw : env.writeOk
        · exact Or.inl (by simp [hu, ho, hw])
        · exact Or.inr ⟨pages, by simp [hu, ho, hw]⟩

/-- Every run of `convert_image_to_markdown` either fails returning `None`
with nothing written, or returns the output path with the combined markdown
of some OCR pages written to it. -/
theorem convert_image_cases (env : ImageConvertEnv) (path : String) :
    convert_image_to_markdown env path = (none, none) ∨
    ∃ pages, convert_image_to_markdown env path =
      (some path, some (get_combined_markdown pages)) := by
  unfold convert_image_to_markdown
  cases hf : env.fileExists
  · exact Or.inl (by simp)
  · rcases ho : (retry_on_error env.ocrOp 3 2 2).1 with e | pages
    · exact Or.inl (by simp [ho])
    · cases hw : env.writeOk
      · exact Or.inl (by simp [ho, hw])
      · exact Or.inr ⟨pages, by simp [ho, hw]⟩

/-- Claim C10 (implicit): `convert_pdf_to_markdown` and
`convert_image_to_markdown` never raise to their caller (in this embedding
they are total functions of their environment, mirroring the
`try/except Exception` wrapping of every failure path in the source); a
`None` return goes with no output file written, a non-`None` return goes
with a written output file, and the returned value is that file's path. -/
theorem C10_convert_returns_path_iff_written (envP : PdfConvertEnv)
    (envI : ImageConvertEnv) (path : String) :
    ((convert_pdf_to_markdown envP path).1.isSome ↔
      (convert_pdf_to_markdown envP path).2.isSome) ∧
    (∀ p, (convert_pdf_to_markdown envP path).1 = some p → p = path) ∧
    ((convert_image_to_markdown envI path).1.isSome ↔
      (convert_image_to_markdown envI path).2.isSome) ∧
    (∀ p, (convert_image_to_markdown envI path).1 = some p → p = path) := by
  refine ⟨?_, ?_, ?_, ?_⟩
  · rcases convert_pdf_cases envP path with h | ⟨pages, h⟩ <;> simp [h]
  · intro p hp
    rcases convert_pdf_cases envP path with h | ⟨pages, h⟩ <;> rw [h] at hp <;> simp at hp
    exact hp.symm
  · rcases convert_image_cases envI path with h | ⟨pages, h⟩ <;> simp [h]
  · intro p hp
    rcases convert_image_cases envI path with h | ⟨pages, h⟩ <;> rw [h] at hp <;> simp at hp
    exact hp.symm

/-- Witness for C10 at fully successful environments. -/
theorem C10_convert_returns_path_iff_written_witness :
    ((convert_pdf_to_markdown
        ⟨true, fun _ => Except.ok "url", fun _ => Except.ok ["page"], true⟩ "o.md").1.isSome ↔
      (convert_pdf_to_markdown
        ⟨true, fun _ => Except.ok "url", fun _ => Except.ok ["page"], true⟩ "o.md").2.isSome) ∧
    "o.md" = "o.md" ∧
    ((convert_image_to_markdown
        ⟨true, fun _ => Except.ok ["page"], true⟩ "o.md").1.isSome ↔
      (convert_image_to_markdown
        ⟨true, fun _ => Except.ok ["page"], true⟩ "o.md").2.isSome) ∧
    "o.md" = "o.md" :=
  ⟨(C10_convert_returns_path_iff_written
      ⟨true, fun _ => Except.ok "url", fun _ => Except.ok ["page"], true⟩
      ⟨true, fun _ => Except.ok ["page"], true⟩ "o.md").1,
   (C10_convert_returns_path_iff_written
      ⟨true, fun _ => Except.ok "url", fun _ => Except.ok ["page"], true⟩
      ⟨true, fun _ => Except.ok ["page"], true⟩ "o.md").2.1 "o.md" rfl,
   (C10_convert_returns_path_iff_written
      ⟨true, fun _ => Except.ok "url", fun _ => Except.ok ["page"], true⟩
      ⟨true, fun _ => Except.ok ["page"], true⟩ "o.md").2.2.1,
   (C10_convert_returns_path_iff_written
      ⟨true, fun _ => Except.ok "url", fun _ => Except.ok ["page"], true⟩
      ⟨true, fun _ => Except.ok ["page"], true⟩ "o.md").2.2.2 "o.md" rfl⟩

end MistralOcr
